import Mathlib

/-!
Verification of the girgaya multiplayer Tron game (frontend).

Shallow embedding of the two source files:
* `GameScene.tsx` (the `part_000` source): `GameRenderer`s per-frame callback
  with its two throttle clocks, the network event handlers wired to the
  `MultiplayerManager`, and `GameScene.handleGameStart`.
* `StartMenu.tsx`: the name-submission handler and the `PerformanceManager`.

JavaScript numbers are embedded as rationals (ℚ); player ids as `String`.
Components of the repository that are not in the provided sources
(`MultiplayerManager`, the `TronGame` collision engine, `GameClient`) are
modelled from the specification document, and each such definition says so
in its doc comment.
-/

namespace Girgaya

/-- A 3-D position `{x, y, z}` as used by the position messages. -/
structure Pos3 where
  x : ℚ
  y : ℚ
  z : ℚ
deriving DecidableEq, Repr

/-- A ground-plane point `{x, z}` as used by trails and the minimap. -/
structure Vec2 where
  x : ℚ
  z : ℚ
deriving DecidableEq, Repr

/-! ## The `GameRenderer` per-frame callback (`useFrame`, GameScene lines 214-263)

The callback owns two throttle clocks held in refs: `lastUpdateTime`
(outbound position sends, interval 100 ms) and `lastEnemyUpdateTime`
(minimap enemy-list refresh, interval 200 ms).  `multiplayerManager.current`
is set once by the mount effect and never reassigned during the frame loop,
so it appears as a constant `managerInit` flag of the frame state. -/

/-- `updateInterval = 100`: send position updates every 100 ms. -/
def updateInterval : ℚ := 100

/-- `enemyUpdateInterval = 200`: update enemy positions on minimap every 200 ms. -/
def enemyUpdateInterval : ℚ := 200

/-- The mutable refs read and written by the `useFrame` callback. -/
structure FrameState where
  lastUpdateTime : ℚ
  lastEnemyUpdateTime : ℚ
  managerInit : Bool
deriving Repr

/-- Per-frame inputs: the clock reading `performance.now()`, the frame
delta, and the local player position (`game.getPlayer()?.getPosition()`,
which is absent when no player exists). -/
structure FrameInput where
  now : ℚ
  delta : ℚ
  playerPos : Option Pos3
deriving Repr

/-- Observable effects of one frame: whether `gameClient.updatePosition`
was called, whether the enemy list was emitted via
`onEnemyPositionsUpdate`, and how many times
`multiplayerManager.current.update(delta)` ran. -/
structure FrameOutput where
  sent : Bool
  enemyClockFired : Bool
  enemiesEmitted : Bool
  managerUpdateCalls : ℕ
deriving Repr

/-- One execution of the `useFrame` callback body (GameScene lines 214-263).
Camera update and `onPositionUpdate` are omitted as they touch neither the
throttle refs nor the multiplayer manager. -/
def useFrameBody (inp : FrameInput) (st : FrameState) : FrameState × FrameOutput :=
  match inp.playerPos with
  | none =>
      -- `if (playerPos)` is false: both throttle blocks are skipped,
      -- but `multiplayerManager.current?.update(delta)` still runs.
      (st, { sent := false, enemyClockFired := false, enemiesEmitted := false,
             managerUpdateCalls := if st.managerInit then 1 else 0 })
  | some _ =>
      let send := inp.now - st.lastUpdateTime > updateInterval
      let st1 := if send then { st with lastUpdateTime := inp.now } else st
      let fire := inp.now - st1.lastEnemyUpdateTime > enemyUpdateInterval
      let st2 := if fire then { st1 with lastEnemyUpdateTime := inp.now } else st1
      (st2, { sent := send, enemyClockFired := fire,
              enemiesEmitted := fire && st.managerInit,
              managerUpdateCalls := if st.managerInit then 1 else 0 })

/-- Run the frame loop over a list of frames, collecting the `now`
timestamps of frames that sent a position update and of frames that fired
the enemy-refresh clock. -/
def runFrames (frames : List FrameInput) (st : FrameState) :
    FrameState × List ℚ × List ℚ :=
  match frames with
  | [] => (st, [], [])
  | f :: fs =>
      let r1 := useFrameBody f st
      let r2 := runFrames fs r1.1
      (r2.1, (if r1.2.sent then [f.now] else []) ++ r2.2.1,
             (if r1.2.enemyClockFired then [f.now] else []) ++ r2.2.2)

/-! ## The remote-player registry and the network event handlers

`MultiplayerManager` (`src/game/core/MultiplayerManager.ts`) is not among
the provided sources — only its call sites in GameScene are — so its
operations are modelled from the specification (§4.4).  The event handlers
that drive it (GameScene lines 170-197) are translated from the source. -/

/-- Modelled from the spec: a `RemotePlayer`s most recent network-reported
transform (`targetPosition`, `targetRotation`).  The interpolation fields
(`renderedPosition` etc.) play no role in the claims below. -/
structure RemotePlayer where
  targetPosition : Pos3
  targetRotation : ℚ
deriving DecidableEq, Repr

/-- Modelled from the spec: the `MultiplayerManager`s registry of remote
players, keyed by id, together with the local id excluded from it. -/
structure MultiplayerManager where
  localPlayerId : String
  players : List (String × RemotePlayer)
deriving Repr

/-- Lookup in the registry by player id. -/
def lookupId (ps : List (String × RemotePlayer)) (id : String) : Option RemotePlayer :=
  match ps with
  | [] => none
  | (i, r) :: rest => if i = id then some r else lookupId rest id

/-- Modelled from the spec: default spawn transform used when
`addPlayer(id)` is called without an initial position. -/
def defaultSpawn : Pos3 := Pos3.mk 0 0 0

/-- Modelled from the spec: `setLocalPlayerId(id)` establishes which id is
excluded from the remote registry. -/
def MultiplayerManager.setLocalPlayerId (st : MultiplayerManager) (id : String) :
    MultiplayerManager :=
  { st with localPlayerId := id }

/-- Apply `g` to the registry entry carrying the given id, leaving every
other entry unchanged. -/
def updateEntry (id : String) (g : RemotePlayer → RemotePlayer)
    (p : String × RemotePlayer) : String × RemotePlayer :=
  if p.1 = id then (p.1, g p.2) else p

/-- Modelled from the spec: `addPlayer(id, initialPosition?)` inserts a new
`RemotePlayer`; idempotent if the id is already present (re-add updates the
position rather than duplicating); self is never added as a remote player,
even if echoed back by the network layer. -/
def MultiplayerManager.addPlayer (st : MultiplayerManager) (id : String)
    (initialPosition : Option Pos3) : MultiplayerManager :=
  if id = st.localPlayerId then st
  else if (lookupId st.players id).isSome then
    { st with players := st.players.map (updateEntry id (fun r =>
        { r with targetPosition := initialPosition.getD r.targetPosition })) }
  else
    { st with players := (id, RemotePlayer.mk (initialPosition.getD defaultSpawn) 0) :: st.players }

/-- Modelled from the spec: `removePlayer(id)` deletes the `RemotePlayer`;
no-op if absent. -/
def MultiplayerManager.removePlayer (st : MultiplayerManager) (id : String) :
    MultiplayerManager :=
  { st with players := st.players.filter (fun p => p.1 ≠ id) }

/-- Modelled from the spec: `updatePlayerPosition(id, position, rotation)`
updates the target transform of an existing `RemotePlayer`; an update for
an unseen id creates it (implicit join); self is never added. -/
def MultiplayerManager.updatePlayerPosition (st : MultiplayerManager) (id : String)
    (pos : Pos3) (rot : ℚ) : MultiplayerManager :=
  if id = st.localPlayerId then st
  else if (lookupId st.players id).isSome then
    { st with players := st.players.map (updateEntry id (fun _ => RemotePlayer.mk pos rot)) }
  else
    { st with players := (id, RemotePlayer.mk pos rot) :: st.players }

/-- Modelled from the spec: `getEnemyPositions()` returns the ground-plane
snapshot of all current remote players. -/
def MultiplayerManager.getEnemyPositions (st : MultiplayerManager) :
    List (String × Vec2) :=
  st.players.map (fun p => (p.1, Vec2.mk p.2.targetPosition.x p.2.targetPosition.z))

/-- The manager as constructed and initialized by the GameScene mount
effect (lines 164-167): fresh registry, then
`setLocalPlayerId(gameClient.getPlayerId())`. -/
def initManager (localId : String) : MultiplayerManager :=
  (MultiplayerManager.mk "" []).setLocalPlayerId localId

/-- The inbound wire messages dispatched by the GameScene handlers.  A
`game_state` snapshot entry carries an optional position, matching the
handler's `player.position &&` guard. -/
inductive NetMsg where
  | player_joined (player_id : String)
  | player_left (player_id : String)
  | player_moved (player_id : String) (position : Pos3) (rotation : ℚ)
  | game_state (players : List (String × Option Pos3))

/-- One iteration of the `game_state` handler loop (GameScene lines
191-196): `if (id !== gameClient.getPlayerId() && player.position)
addPlayer(id, player.position)`.  By line 167,
`gameClient.getPlayerId()` is exactly the id stored via
`setLocalPlayerId`, so the comparison is written against
`localPlayerId`. -/
def applyGameStateEntry (acc : MultiplayerManager) (e : String × Option Pos3) :
    MultiplayerManager :=
  match e.2 with
  | some p => if e.1 ≠ acc.localPlayerId then acc.addPlayer e.1 (some p) else acc
  | none => acc

/-- The event handlers registered on `gameClient` (GameScene lines
170-197). -/
def handleMessage (st : MultiplayerManager) (msg : NetMsg) : MultiplayerManager :=
  match msg with
  | .player_joined id => st.addPlayer id none
  | .player_left id => st.removePlayer id
  | .player_moved id pos rot => st.updatePlayerPosition id pos rot
  | .game_state entries => entries.foldl applyGameStateEntry st

/-! ## `GameScene.handleGameStart` (GameScene lines 279-304) -/

/-- Modelled from the spec: the `TronGame` object constructed at game
start (`src/game/core/TronGame.ts` is not among the provided sources).
Only its arena size is observable to the claims here (`getArenaSize`,
read at line 297); the spec's boundary scenario fixes it at 500. -/
structure TronGame where
  arenaSize : ℚ
deriving DecidableEq, Repr

/-- Modelled from the spec: `new TronGame(scene, physicsWorld)` with the
session arena size. -/
def newTronGame : TronGame := TronGame.mk 500

/-- Modelled from the spec: the outcome of `gameClient.connect(name)` —
resolution, or rejection with a surfaced connection error. -/
inductive ConnectResult where
  | ok
  | connError (msg : String)
deriving DecidableEq, Repr

/-- The `GameScene` React state and refs touched by `handleGameStart`:
`gameStarted`, `playerName`, the `game` ref and the `arenaSize` state,
plus whether `scene.current` has been set by the canvas. -/
structure SceneState where
  gameStarted : Bool
  playerName : Option String
  game : Option TronGame
  arenaSize : ℚ
  sceneReady : Bool
deriving DecidableEq, Repr

/-- The scene state before any interaction: `useState(false)` for
`gameStarted`, no name, no game, `useState(500)` for `arenaSize`. -/
def initialSceneState (ready : Bool) : SceneState :=
  { gameStarted := false, playerName := none, game := none,
    arenaSize := 500, sceneReady := ready }

/-- `handleGameStart(name)` (GameScene lines 279-304): awaits
`gameClient.connect(name)`.  On success it sets the player name, marks
the game started and, if the scene exists, constructs the `TronGame`,
starts it and copies its arena size into state.  A rejected `connect`
jumps to the `catch` block, which only logs — none of those state
updates run. -/
def handleGameStart (name : String) (connectResult : ConnectResult)
    (st : SceneState) : SceneState :=
  match connectResult with
  | .connError _ => st
  | .ok =>
      let st1 := { st with playerName := some name, gameStarted := true }
      if st1.sceneReady then
        { st1 with game := some newTronGame, arenaSize := newTronGame.arenaSize }
      else st1

/-! ## `StartMenu` (StartMenu.tsx lines 167-191)

A JavaScript string is embedded as a list of characters. -/

/-- The whitespace characters stripped by JavaScript's
`String.prototype.trim` (the usual ASCII cases). -/
def isTrimWhitespace (c : Char) : Bool :=
  c == ' ' || c == '\t' || c == '\n' || c == '\r' || c == '\x0b' || c == '\x0c'

/-- JS `s.trim()`: strip leading and trailing whitespace. -/
def jsTrim (s : List Char) : List Char :=
  ((s.dropWhile isTrimWhitespace).reverse.dropWhile isTrimWhitespace).reverse

/-- The name input's `maxLength={15}` attribute (StartMenu line 187). -/
def nameMaxLength : ℕ := 15

/-- The controlled input: the browser truncates what the user types to
`maxLength` characters, so the `playerName` state never exceeds 15. -/
def inputValue (typed : List Char) : List Char := typed.take nameMaxLength

/-- `handleSubmit` (StartMenu lines 170-175): `onStart` receives the
trimmed name only when it is non-empty (`if (playerName.trim())`);
otherwise the submission is suppressed. -/
def handleSubmit (playerName : List Char) : Option (List Char) :=
  if jsTrim playerName ≠ [] then some (jsTrim playerName) else none

/-! ## `PerformanceManager` (StartMenu.tsx source, lines 208-377) -/

def MIN_RESOLUTION_SCALE : ℚ := 1/2

def FPS_HISTORY_SIZE : ℕ := 20

def MIN_CHANGE_INTERVAL : ℚ := 2000

def LOW_FPS_THRESHOLD : ℚ := 30

def HIGH_FPS_THRESHOLD : ℚ := 55

/-- The `PerformanceManager`s mutable fields.  `applyResolutionScale`
only pushes `resolutionScale` into the renderer, so it does not appear
in the state. -/
structure PerformanceManager where
  lastFpsTime : ℚ
  frameCount : ℕ
  currentFps : ℚ
  targetFps : ℚ
  resolutionScale : ℚ
  fpsHistory : List ℚ
  isEnabled : Bool
  lastResolutionChangeTime : ℚ
deriving Repr

/-- The private constructor: field initializers (lines 210-220) and the
FPS history pre-filled with the target (lines 224-226). -/
def PerformanceManager.init : PerformanceManager :=
  { lastFpsTime := 0, frameCount := 0, currentFps := 60, targetFps := 60,
    resolutionScale := 1, fpsHistory := List.replicate FPS_HISTORY_SIZE 60,
    isEnabled := true, lastResolutionChangeTime := 0 }

/-- The resolution-adjustment part of `update()` (lines 278-308): the
gradual decrease branch (below `LOW_FPS_THRESHOLD`, with the `>2%`
significance check) and the gradual increase branch (above
`HIGH_FPS_THRESHOLD` while below 100%, with the `>1%` check). -/
def adjustResolution (st1 : PerformanceManager) (now avgFps : ℚ) :
    PerformanceManager :=
  if avgFps < LOW_FPS_THRESHOLD then
    let reduction : ℚ := if avgFps < 20 then 85/100 else 95/100
    let newScale := max (st1.resolutionScale * reduction) MIN_RESOLUTION_SCALE
    if |newScale - st1.resolutionScale| > 2/100 then
      { st1 with resolutionScale := newScale, lastResolutionChangeTime := now }
    else st1
  else if avgFps > HIGH_FPS_THRESHOLD ∧ st1.resolutionScale < 1 then
    let newScale := min (st1.resolutionScale * (102/100)) 1
    if newScale - st1.resolutionScale > 1/100 then
      { st1 with resolutionScale := newScale, lastResolutionChangeTime := now }
    else st1
  else st1

/-- `update()` (lines 250-310), with `now = performance.now()`. -/
def PerformanceManager.update (st : PerformanceManager) (now : ℚ) :
    PerformanceManager :=
  if !st.isEnabled then st
  else
    let frameCount := st.frameCount + 1
    if now - st.lastFpsTime ≥ 1000 then
      let currentFps : ℚ := frameCount
      let hist0 := st.fpsHistory ++ [currentFps]
      let hist := if hist0.length > FPS_HISTORY_SIZE then hist0.tail else hist0
      let st1 := { st with
        frameCount := 0
        currentFps := currentFps
        lastFpsTime := now
        fpsHistory := hist }
      if now - st.lastResolutionChangeTime < MIN_CHANGE_INTERVAL then st1
      else
        let recentFps := hist.drop (hist.length - 10)
        let avgFps := recentFps.sum / (recentFps.length : ℚ)
        adjustResolution st1 now avgFps
    else { st with frameCount := frameCount }

/-- `setTargetFps(fps)` (lines 333-335). -/
def PerformanceManager.setTargetFps (st : PerformanceManager) (fps : ℚ) :
    PerformanceManager :=
  { st with targetFps := fps }

/-- `setEnabled(enabled)` (lines 340-354): enabling resets the FPS
history; disabling resets the scale to full resolution. -/
def PerformanceManager.setEnabled (st : PerformanceManager) (enabled : Bool) :
    PerformanceManager :=
  if enabled then
    { st with isEnabled := true,
              fpsHistory := List.replicate FPS_HISTORY_SIZE st.targetFps }
  else
    { st with isEnabled := false, resolutionScale := 1 }

/-- `setResolutionScale(scale)` (lines 373-377): clamp into
`[MIN_RESOLUTION_SCALE, 1.0]`. -/
def PerformanceManager.setResolutionScale (st : PerformanceManager)
    (scale now : ℚ) : PerformanceManager :=
  { st with resolutionScale := max MIN_RESOLUTION_SCALE (min 1 scale),
            lastResolutionChangeTime := now }

/-- The public operations that can touch the manager's state after
construction. -/
inductive PerfOp where
  | update (now : ℚ)
  | setTargetFps (fps : ℚ)
  | setEnabled (enabled : Bool)
  | setResolutionScale (scale now : ℚ)

def applyPerfOp (st : PerformanceManager) (op : PerfOp) : PerformanceManager :=
  match op with
  | .update now => st.update now
  | .setTargetFps fps => st.setTargetFps fps
  | .setEnabled enabled => st.setEnabled enabled
  | .setResolutionScale scale now => st.setResolutionScale scale now

/-! ## Trail & collision engine (modelled from the spec, §4.1)

`src/game/core/TronGame.ts` is not among the provided sources; the engine
below is modelled from the specification's contract for `checkCollision`:
boundary test `|x| ≥ size/2 or |z| ≥ size/2`, 2D segment-segment
intersection of the projected path against every tracked trail segment
(excluding the most recent segment of the mover's own trail), and
proximity to other players' positions. -/

/-- Orientation: the cross product of `b - a` and `c - a`. -/
def orient2 (a b c : Vec2) : ℚ :=
  (b.x - a.x) * (c.z - a.z) - (b.z - a.z) * (c.x - a.x)

/-- `p` lies within the bounding box of the segment `(a, b)` (used for
the collinear cases of the intersection test). -/
def inBox (a b p : Vec2) : Bool :=
  decide (min a.x b.x ≤ p.x) && decide (p.x ≤ max a.x b.x) &&
  decide (min a.z b.z ≤ p.z) && decide (p.z ≤ max a.z b.z)

/-- Standard 2D line-segment intersection on the ground plane: proper
crossings by opposite orientations, plus collinear/touching cases. -/
def segmentsIntersect (p1 p2 q1 q2 : Vec2) : Bool :=
  let d1 := orient2 q1 q2 p1
  let d2 := orient2 q1 q2 p2
  let d3 := orient2 p1 p2 q1
  let d4 := orient2 p1 p2 q2
  (decide ((d1 > 0 ∧ d2 < 0) ∨ (d1 < 0 ∧ d2 > 0)) &&
    decide ((d3 > 0 ∧ d4 < 0) ∨ (d3 < 0 ∧ d4 > 0))) ||
  (decide (d1 = 0) && inBox q1 q2 p1) ||
  (decide (d2 = 0) && inBox q1 q2 p2) ||
  (decide (d3 = 0) && inBox p1 p2 q1) ||
  (decide (d4 = 0) && inBox p1 p2 q2)

/-- The collidable segments of a trail: each consecutive pair of points.
A trail with fewer than 2 points has no segments. -/
def segmentsOf (trail : List Vec2) : List (Vec2 × Vec2) :=
  trail.zip trail.tail

/-- Modelled from the spec: the engine tracks the arena size, one trail
per player, every player's current position, and the configured
player-proximity radius. -/
structure CollisionEngine where
  arenaSize : ℚ
  trails : List (String × List Vec2)
  playerPositions : List (String × Vec2)
  proximityRadius : ℚ

/-- The arena-boundary test: `|x| ≥ size/2 or |z| ≥ size/2` (inclusive). -/
def boundaryHit (size : ℚ) (c : Vec2) : Bool :=
  decide (|c.x| ≥ size / 2) || decide (|c.z| ≥ size / 2)

/-- The segments of one tracked trail that are tested against the mover's
path: all of them, except that the most recent (still-forming) segment of
the mover's own trail is excluded. -/
def trailSegmentsFor (mover pid : String) (tr : List Vec2) :
    List (Vec2 × Vec2) :=
  if pid = mover then (segmentsOf tr).dropLast else segmentsOf tr

/-- Proximity to any other player's current position. -/
def proximityHit (eng : CollisionEngine) (mover : String) (c : Vec2) : Bool :=
  eng.playerPositions.any (fun p =>
    decide (p.1 ≠ mover) &&
    decide ((p.2.x - c.x) ^ 2 + (p.2.z - c.z) ^ 2 ≤ eng.proximityRadius ^ 2))

/-- The mover's trail in the engine (empty if untracked). -/
def lookupTrail (ts : List (String × List Vec2)) (id : String) : List Vec2 :=
  match ts with
  | [] => []
  | (i, tr) :: rest => if i = id then tr else lookupTrail rest id

/-- Modelled from the spec: `checkCollision(playerId, candidatePosition)`
tests the candidate's projected path since the mover's last recorded
point against the arena boundary, every considered trail segment, and
player proximity; true on first hit. -/
def checkCollision (eng : CollisionEngine) (mover : String) (c : Vec2) : Bool :=
  let start := (lookupTrail eng.trails mover).getLast?.getD c
  boundaryHit eng.arenaSize c ||
  eng.trails.any (fun t => (trailSegmentsFor mover t.1 t.2).any
    (fun s => segmentsIntersect start c s.1 s.2)) ||
  proximityHit eng mover c

/-- `gapsFrom g base l`: the first element of `l` exceeds `base` by more
than `g`, and every later element exceeds its predecessor by more than `g`. -/
def gapsFrom (g : ℚ) : ℚ → List ℚ → Prop
  | _, [] => True
  | base, a :: rest => a - base > g ∧ gapsFrom g a rest

theorem gapsFrom_mem_gt {g base : ℚ} (hg : 0 ≤ g) :
    ∀ {l : List ℚ}, gapsFrom g base l → ∀ x ∈ l, x - base > g := by
  intro l
  induction l generalizing base with
  | nil => intro _ x hx; cases hx
  | cons a rest ih =>
      intro h x hx
      rcases List.mem_cons.mp hx with rfl | hx
      · exact h.1
      · have hrec := ih h.2 x hx
        have := h.1
        linarith

/-- In a list whose consecutive gaps all exceed `g ≥ width`, any closed
window of length `width` contains at most one element. -/
theorem gapsFrom_window {g : ℚ} (hg : 0 ≤ g) :
    ∀ {base : ℚ} {l : List ℚ}, gapsFrom g base l →
    ∀ w width : ℚ, width ≤ g →
      (l.filter (fun s => decide (w ≤ s) && decide (s ≤ w + width))).length ≤ 1 := by
  intro base l
  induction l generalizing base with
  | nil => intro _ w width _; simp
  | cons a rest ih =>
      intro h w width hwidth
      by_cases ha : (w ≤ a ∧ a ≤ w + width)
      · have hrest : rest.filter (fun s => decide (w ≤ s) && decide (s ≤ w + width)) = [] := by
          rw [List.filter_eq_nil_iff]
          intro x hx
          have hgt : x - a > g := gapsFrom_mem_gt hg h.2 x hx
          simp only [Bool.and_eq_true, decide_eq_true_eq, not_and]
          intro _
          linarith [ha.1]
        simp only [List.filter_cons, hrest]
        split <;> simp
      · have hfa : (decide (w ≤ a) && decide (a ≤ w + width)) = false := by
          simp only [Bool.and_eq_false_iff, decide_eq_false_iff_not]
          by_cases h1 : w ≤ a
          · exact Or.inr (fun h2 => ha ⟨h1, h2⟩)
          · exact Or.inl h1
        simp only [List.filter_cons, hfa, Bool.false_eq_true, if_false]
        exact ih h.2 w width hwidth

/-- How one frame relates the throttle refs to its observable effects:
a send happens exactly when the player position exists and more than
100 ms passed since `lastUpdateTime`, which is then reset to `now`
(and symmetrically for the 200 ms enemy clock); `managerInit` is
never changed by a frame. -/
theorem useFrameBody_spec (inp : FrameInput) (st : FrameState) :
    ((useFrameBody inp st).2.sent = true →
        inp.now - st.lastUpdateTime > updateInterval ∧
        (useFrameBody inp st).1.lastUpdateTime = inp.now) ∧
    ((useFrameBody inp st).2.sent = false →
        (useFrameBody inp st).1.lastUpdateTime = st.lastUpdateTime) ∧
    ((useFrameBody inp st).2.enemyClockFired = true →
        inp.now - st.lastEnemyUpdateTime > enemyUpdateInterval ∧
        (useFrameBody inp st).1.lastEnemyUpdateTime = inp.now) ∧
    ((useFrameBody inp st).2.enemyClockFired = false →
        (useFrameBody inp st).1.lastEnemyUpdateTime = st.lastEnemyUpdateTime) ∧
    (useFrameBody inp st).1.managerInit = st.managerInit := by
  rcases hpos : inp.playerPos with _ | p
  · simp [useFrameBody, hpos]
  · simp only [useFrameBody, hpos]
    by_cases hs : inp.now - st.lastUpdateTime > updateInterval <;>
      by_cases hf : inp.now - st.lastEnemyUpdateTime > enemyUpdateInterval <;>
      simp [hs, hf]

theorem runFrames_sends_gaps (frames : List FrameInput) (st : FrameState) :
    gapsFrom updateInterval st.lastUpdateTime (runFrames frames st).2.1 := by
  induction frames generalizing st with
  | nil => simp [runFrames, gapsFrom]
  | cons f fs ih =>
      have hspec := useFrameBody_spec f st
      rcases hsent : (useFrameBody f st).2.sent with _ | _
      · have hlast := hspec.2.1 hsent
        simpa [runFrames, hsent, ← hlast] using ih (useFrameBody f st).1
      · have hlast := hspec.1 hsent
        have hrest := ih (useFrameBody f st).1
        rw [hlast.2] at hrest
        simpa [runFrames, hsent, gapsFrom] using ⟨hlast.1, hrest⟩

theorem runFrames_fires_gaps (frames : List FrameInput) (st : FrameState) :
    gapsFrom enemyUpdateInterval st.lastEnemyUpdateTime (runFrames frames st).2.2 := by
  induction frames generalizing st with
  | nil => simp [runFrames, gapsFrom]
  | cons f fs ih =>
      have hspec := useFrameBody_spec f st
      rcases hfire : (useFrameBody f st).2.enemyClockFired with _ | _
      · have hlast := hspec.2.2.2.1 hfire
        simpa [runFrames, hfire, ← hlast] using ih (useFrameBody f st).1
      · have hlast := hspec.2.2.1 hfire
        have hrest := ih (useFrameBody f st).1
        rw [hlast.2] at hrest
        simpa [runFrames, hfire, gapsFrom] using ⟨hlast.1, hrest⟩

/-- **C1.** On every frame, the outbound position update is sent only when
more than 100 ms (hence at least 100 ms) has elapsed since the previous
send: along any run of the frame loop, consecutive send timestamps are
more than `updateInterval = 100` ms apart, and consequently any closed
100 ms window `[w, w + 100]` contains at most one send. -/
theorem send_throttle_100ms (frames : List FrameInput) (st : FrameState) :
    gapsFrom updateInterval st.lastUpdateTime (runFrames frames st).2.1 ∧
    ∀ w : ℚ,
      ((runFrames frames st).2.1.filter
        (fun s => decide (w ≤ s) && decide (s ≤ w + 100))).length ≤ 1 := by
  refine ⟨runFrames_sends_gaps frames st, fun w => ?_⟩
  exact gapsFrom_window (by norm_num [updateInterval])
    (runFrames_sends_gaps frames st) w 100 (le_refl _)

/-- **C4.** Once the multiplayer manager is initialized, every frame tick
invokes `multiplayerManager.current.update(delta)` exactly once — also on
frames where the local player position is unavailable (the call sits
outside the `if (playerPos)` block), and independently of network
traffic (the frame body takes no network input at all). -/
theorem manager_update_every_frame (inp : FrameInput) (st : FrameState)
    (h : st.managerInit = true) :
    (useFrameBody inp st).2.managerUpdateCalls = 1 := by
  rcases hpos : inp.playerPos with _ | p <;>
    simp [useFrameBody, hpos, h]

theorem manager_update_every_frame_witness :
    (FrameState.mk 0 0 true).managerInit = true ∧
    (useFrameBody (FrameInput.mk 0 (1/60) none) (FrameState.mk 0 0 true)).2.managerUpdateCalls = 1 :=
  ⟨rfl, manager_update_every_frame (FrameInput.mk 0 (1/60) none) (FrameState.mk 0 0 true) rfl⟩

/-- **C6.** The minimap enemy-position list is refreshed only when more
than 200 ms (hence at least 200 ms) has elapsed since the previous
refresh: consecutive firings of the enemy clock are more than
`enemyUpdateInterval = 200` ms apart.  Moreover this clock is separate
from and independent of the 100 ms outbound-broadcast clock: the
refresh decision does not depend on `lastUpdateTime`, and the send
decision does not depend on `lastEnemyUpdateTime`. -/
theorem enemy_refresh_throttle_200ms (frames : List FrameInput) (st : FrameState) :
    gapsFrom enemyUpdateInterval st.lastEnemyUpdateTime (runFrames frames st).2.2 ∧
    (∀ (inp : FrameInput) (st' : FrameState) (a b : ℚ),
      (useFrameBody inp { st' with lastUpdateTime := a }).2.enemyClockFired =
      (useFrameBody inp { st' with lastUpdateTime := b }).2.enemyClockFired) ∧
    (∀ (inp : FrameInput) (st' : FrameState) (a b : ℚ),
      (useFrameBody inp { st' with lastEnemyUpdateTime := a }).2.sent =
      (useFrameBody inp { st' with lastEnemyUpdateTime := b }).2.sent) := by
  refine ⟨runFrames_fires_gaps frames st, fun inp st' a b => ?_, fun inp st' a b => ?_⟩
  · rcases hpos : inp.playerPos with _ | p
    · simp [useFrameBody, hpos]
    · simp only [useFrameBody, hpos]
      split_ifs <;> simp
  · rcases hpos : inp.playerPos with _ | p
    · simp [useFrameBody, hpos]
    · simp [useFrameBody, hpos]

/-! ### Registry lemmas for the manager operations -/

theorem lookupId_map_update (id i : String) (g : RemotePlayer → RemotePlayer)
    (ps : List (String × RemotePlayer)) :
    lookupId (ps.map (updateEntry id g)) i =
      if i = id then (lookupId ps i).map g else lookupId ps i := by
  induction ps with
  | nil => split_ifs <;> rfl
  | cons hd tl ih =>
      obtain ⟨a, r⟩ := hd
      simp only [List.map_cons, updateEntry]
      by_cases haid : a = id
      · rw [if_pos haid]
        by_cases hai : a = i
        · have hiid : i = id := hai ▸ haid
          simp [lookupId, hai, hiid]
        · simp [lookupId, hai, ih]
      · rw [if_neg haid]
        by_cases hai : a = i
        · have hiid : ¬ i = id := fun h => haid (hai.trans h)
          simp [lookupId, hai, hiid]
        · simp [lookupId, hai, ih]

theorem keys_map_update (id : String) (g : RemotePlayer → RemotePlayer)
    (ps : List (String × RemotePlayer)) :
    (ps.map (updateEntry id g)).map Prod.fst = ps.map Prod.fst := by
  rw [List.map_map]
  apply List.map_congr_left
  intro p _
  simp only [Function.comp_apply, updateEntry]
  split_ifs <;> rfl

theorem addPlayer_localId (st : MultiplayerManager) (id : String) (pos : Option Pos3) :
    (st.addPlayer id pos).localPlayerId = st.localPlayerId := by
  unfold MultiplayerManager.addPlayer
  split_ifs <;> rfl

theorem addPlayer_lookup_self (st : MultiplayerManager) (id : String) (p : Pos3)
    (h : id ≠ st.localPlayerId) :
    ∃ rp, lookupId (st.addPlayer id (some p)).players id = some rp ∧
      rp.targetPosition = p := by
  unfold MultiplayerManager.addPlayer
  rw [if_neg h]
  by_cases hpres : (lookupId st.players id).isSome
  · rw [if_pos hpres]
    rcases Option.isSome_iff_exists.mp hpres with ⟨r, hr⟩
    refine ⟨RemotePlayer.mk p r.targetRotation, ?_, rfl⟩
    rw [lookupId_map_update, if_pos rfl, hr]
    rfl
  · rw [if_neg hpres]
    exact ⟨RemotePlayer.mk p 0, by simp [lookupId], rfl⟩

theorem addPlayer_lookup_other (st : MultiplayerManager) (id : String)
    (pos : Option Pos3) (i : String) (h : i ≠ id) :
    lookupId (st.addPlayer id pos).players i = lookupId st.players i := by
  unfold MultiplayerManager.addPlayer
  split_ifs with h1 h2
  · rfl
  · rw [lookupId_map_update, if_neg h]
  · show lookupId ((id, _) :: st.players) i = lookupId st.players i
    simp only [lookupId]
    rw [if_neg (fun he => h he.symm)]

theorem addPlayer_keys_mem (st : MultiplayerManager) (id : String)
    (pos : Option Pos3) (i : String) (h : i ∈ st.players.map Prod.fst) :
    i ∈ (st.addPlayer id pos).players.map Prod.fst := by
  unfold MultiplayerManager.addPlayer
  split_ifs with h1 h2
  · exact h
  · rw [keys_map_update]; exact h
  · exact List.mem_cons_of_mem id h

theorem addPlayer_not_local (st : MultiplayerManager) (id : String)
    (pos : Option Pos3) (h : st.localPlayerId ∉ st.players.map Prod.fst) :
    (st.addPlayer id pos).localPlayerId ∉ (st.addPlayer id pos).players.map Prod.fst := by
  rw [addPlayer_localId]
  unfold MultiplayerManager.addPlayer
  split_ifs with h1 h2
  · exact h
  · rw [keys_map_update]; exact h
  · simp only [List.map_cons, List.mem_cons, not_or]
    exact ⟨fun he => h1 he.symm, h⟩

theorem applyGameStateEntry_localId (acc : MultiplayerManager) (e : String × Option Pos3) :
    (applyGameStateEntry acc e).localPlayerId = acc.localPlayerId := by
  unfold applyGameStateEntry
  rcases e.2 with _ | p
  · rfl
  · dsimp only
    split_ifs with h1
    · exact addPlayer_localId acc e.1 (some p)
    · rfl

theorem applyGameStateEntry_lookup_other (acc : MultiplayerManager)
    (e : String × Option Pos3) (i : String) (h : i ≠ e.1) :
    lookupId (applyGameStateEntry acc e).players i = lookupId acc.players i := by
  unfold applyGameStateEntry
  rcases e.2 with _ | p
  · rfl
  · dsimp only
    split_ifs with h1
    · exact addPlayer_lookup_other acc e.1 (some p) i h
    · rfl

theorem foldl_applyGameStateEntry_localId (entries : List (String × Option Pos3)) :
    ∀ acc : MultiplayerManager,
      (entries.foldl applyGameStateEntry acc).localPlayerId = acc.localPlayerId := by
  induction entries with
  | nil => intro acc; rfl
  | cons e rest ih =>
      intro acc
      rw [List.foldl_cons, ih, applyGameStateEntry_localId]

theorem foldl_applyGameStateEntry_lookup (entries : List (String × Option Pos3))
    (i : String) :
    ∀ acc : MultiplayerManager, (∀ e ∈ entries, e.1 ≠ i) →
      lookupId (entries.foldl applyGameStateEntry acc).players i =
        lookupId acc.players i := by
  induction entries with
  | nil => intro acc _; rfl
  | cons e rest ih =>
      intro acc hall
      rw [List.foldl_cons, ih _ (fun x hx => hall x (List.mem_cons_of_mem e hx)),
        applyGameStateEntry_lookup_other]
      exact fun he => hall e (List.mem_cons_self e rest) he.symm

theorem foldl_applyGameStateEntry_keys_mem (entries : List (String × Option Pos3))
    (i : String) :
    ∀ acc : MultiplayerManager, i ∈ acc.players.map Prod.fst →
      i ∈ (entries.foldl applyGameStateEntry acc).players.map Prod.fst := by
  induction entries with
  | nil => intro acc h; exact h
  | cons e rest ih =>
      intro acc h
      rw [List.foldl_cons]
      apply ih
      unfold applyGameStateEntry
      rcases e.2 with _ | p
      · exact h
      · dsimp only
        split_ifs with h1
        · exact addPlayer_keys_mem acc e.1 (some p) i h
        · exact h

theorem updatePlayerPosition_not_local (st : MultiplayerManager) (id : String)
    (pos : Pos3) (rot : ℚ) (h : st.localPlayerId ∉ st.players.map Prod.fst) :
    (st.updatePlayerPosition id pos rot).localPlayerId ∉
      (st.updatePlayerPosition id pos rot).players.map Prod.fst := by
  have hloc : (st.updatePlayerPosition id pos rot).localPlayerId = st.localPlayerId := by
    unfold MultiplayerManager.updatePlayerPosition
    split_ifs <;> rfl
  rw [hloc]
  unfold MultiplayerManager.updatePlayerPosition
  split_ifs with h1 h2
  · exact h
  · rw [keys_map_update]; exact h
  · simp only [List.map_cons, List.mem_cons, not_or]
    exact ⟨fun he => h1 he.symm, h⟩

theorem removePlayer_not_local (st : MultiplayerManager) (id : String)
    (h : st.localPlayerId ∉ st.players.map Prod.fst) :
    (st.removePlayer id).localPlayerId ∉ (st.removePlayer id).players.map Prod.fst := by
  unfold MultiplayerManager.removePlayer
  intro hmem
  rcases List.mem_map.mp hmem with ⟨q, hq, hq1⟩
  exact h (hq1 ▸ List.mem_map_of_mem Prod.fst (List.mem_of_mem_filter hq))

theorem applyGameStateEntry_not_local (acc : MultiplayerManager)
    (e : String × Option Pos3) (h : acc.localPlayerId ∉ acc.players.map Prod.fst) :
    (applyGameStateEntry acc e).localPlayerId ∉
      (applyGameStateEntry acc e).players.map Prod.fst := by
  unfold applyGameStateEntry
  rcases e.2 with _ | p
  · exact h
  · dsimp only
    split_ifs with h1
    · exact addPlayer_not_local acc e.1 (some p) h
    · exact h

theorem handleMessage_localId (st : MultiplayerManager) (msg : NetMsg) :
    (handleMessage st msg).localPlayerId = st.localPlayerId := by
  rcases msg with id | id | ⟨id, pos, rot⟩ | entries
  · exact addPlayer_localId st id none
  · rfl
  · show (st.updatePlayerPosition id pos rot).localPlayerId = st.localPlayerId
    unfold MultiplayerManager.updatePlayerPosition
    split_ifs <;> rfl
  · exact foldl_applyGameStateEntry_localId entries st

theorem handleMessage_not_local (st : MultiplayerManager) (msg : NetMsg)
    (h : st.localPlayerId ∉ st.players.map Prod.fst) :
    (handleMessage st msg).localPlayerId ∉
      (handleMessage st msg).players.map Prod.fst := by
  rcases msg with id | id | ⟨id, pos, rot⟩ | entries
  · exact addPlayer_not_local st id none h
  · exact removePlayer_not_local st id h
  · exact updatePlayerPosition_not_local st id pos rot h
  · show (entries.foldl applyGameStateEntry st).localPlayerId ∉ _
    induction entries generalizing st with
    | nil => exact h
    | cons e rest ih =>
        rw [List.foldl_cons]
        exact ih (applyGameStateEntry st e) (applyGameStateEntry_not_local st e h)

theorem foldl_handleMessage_localId (msgs : List NetMsg) :
    ∀ st : MultiplayerManager,
      (msgs.foldl handleMessage st).localPlayerId = st.localPlayerId := by
  induction msgs with
  | nil => intro st; rfl
  | cons m rest ih =>
      intro st
      rw [List.foldl_cons, ih, handleMessage_localId]

theorem foldl_handleMessage_not_local (msgs : List NetMsg) :
    ∀ st : MultiplayerManager,
      st.localPlayerId ∉ st.players.map Prod.fst →
      (msgs.foldl handleMessage st).localPlayerId ∉
        (msgs.foldl handleMessage st).players.map Prod.fst := by
  induction msgs with
  | nil => intro st h; exact h
  | cons m rest ih =>
      intro st h
      rw [List.foldl_cons]
      exact ih (handleMessage st m) (handleMessage_not_local st m h)

/-- **C3.** After `setLocalPlayerId` establishes the local id, that id is
never present in the remote-player registry — and hence never appears in
`getEnemyPositions()` — for every sequence of incoming `player_joined`,
`player_left`, `player_moved` and `game_state` messages, including ones
that echo the local id. -/
theorem local_id_never_remote (localId : String) (msgs : List NetMsg) :
    localId ∉ (msgs.foldl handleMessage (initManager localId)).players.map Prod.fst ∧
    ∀ e ∈ (msgs.foldl handleMessage (initManager localId)).getEnemyPositions,
      e.1 ≠ localId := by
  have hstart : (initManager localId).localPlayerId ∉
      (initManager localId).players.map Prod.fst := by
    simp [initManager, MultiplayerManager.setLocalPlayerId]
  have hmain := foldl_handleMessage_not_local msgs (initManager localId) hstart
  rw [foldl_handleMessage_localId msgs (initManager localId)] at hmain
  refine ⟨hmain, ?_⟩
  intro e he heq
  rcases List.mem_map.mp he with ⟨q, hq, hq1⟩
  apply hmain
  have hql : q.1 = localId := (congrArg Prod.fst hq1).trans heq
  have hmem := List.mem_map_of_mem Prod.fst hq
  rw [hql] at hmem
  exact hmem

theorem local_id_never_remote_witness :
    ("me" ∉ (([NetMsg.player_joined "me", NetMsg.player_joined "p",
        NetMsg.player_moved "me" (Pos3.mk 1 2 3) 0].foldl handleMessage
        (initManager "me")).players.map Prod.fst)) ∧
    ("p", Vec2.mk 0 0) ∈ (([NetMsg.player_joined "me", NetMsg.player_joined "p",
        NetMsg.player_moved "me" (Pos3.mk 1 2 3) 0].foldl handleMessage
        (initManager "me")).getEnemyPositions) ∧
    ("p", Vec2.mk 0 0).1 ≠ "me" :=
  ⟨(local_id_never_remote "me" [NetMsg.player_joined "me", NetMsg.player_joined "p",
      NetMsg.player_moved "me" (Pos3.mk 1 2 3) 0]).1,
   by simp [handleMessage, initManager, MultiplayerManager.setLocalPlayerId,
        MultiplayerManager.addPlayer, MultiplayerManager.updatePlayerPosition,
        MultiplayerManager.getEnemyPositions, lookupId, defaultSpawn],
   (local_id_never_remote "me" [NetMsg.player_joined "me", NetMsg.player_joined "p",
      NetMsg.player_moved "me" (Pos3.mk 1 2 3) 0]).2 ("p", Vec2.mk 0 0)
      (by simp [handleMessage, initManager, MultiplayerManager.setLocalPlayerId,
        MultiplayerManager.addPlayer, MultiplayerManager.updatePlayerPosition,
        MultiplayerManager.getEnemyPositions, lookupId, defaultSpawn])⟩

/-- **C2.** Handling a `game_state` message subsumes applying
`player_joined` for each snapshot entry whose id is not the local one:
every such entry (with its snapshot position present, as the handler's
`player.position` guard requires) ends up in the remote registry with its
snapshot position as target, and no previously registered player is
removed by the handler. -/
theorem game_state_superset (st : MultiplayerManager)
    (entries : List (String × Option Pos3)) (id : String) (p : Pos3)
    (hnodup : (entries.map Prod.fst).Nodup)
    (hmem : (id, some p) ∈ entries)
    (hne : id ≠ st.localPlayerId) :
    (∃ rp, lookupId (handleMessage st (.game_state entries)).players id = some rp ∧
        rp.targetPosition = p) ∧
    ∀ i ∈ st.players.map Prod.fst,
      i ∈ (handleMessage st (.game_state entries)).players.map Prod.fst := by
  constructor
  · show ∃ rp, lookupId (entries.foldl applyGameStateEntry st).players id = some rp ∧
      rp.targetPosition = p
    induction entries generalizing st with
    | nil => cases hmem
    | cons e rest ih =>
        rcases List.mem_cons.mp hmem with heq | hmem'
        · subst heq
          rw [List.foldl_cons]
          have hkeys : ∀ x ∈ rest, x.1 ≠ id := by
            intro x hx hxid
            have : id ∈ rest.map Prod.fst := hxid ▸ List.mem_map_of_mem Prod.fst hx
            exact (List.nodup_cons.mp (by simpa using hnodup)).1 this
          rw [foldl_applyGameStateEntry_lookup rest id _ hkeys]
          show ∃ rp, lookupId (applyGameStateEntry st (id, some p)).players id = some rp ∧
            rp.targetPosition = p
          unfold applyGameStateEntry
          dsimp only
          rw [if_pos hne]
          exact addPlayer_lookup_self st id p hne
        · rw [List.foldl_cons]
          refine ih (applyGameStateEntry st e) ?_ hmem' ?_
          · exact (List.nodup_cons.mp (by simpa using hnodup)).2
          · rw [applyGameStateEntry_localId]; exact hne
  · intro i hi
    exact foldl_applyGameStateEntry_keys_mem entries i st hi

theorem game_state_superset_witness :
    (([("p1", some (Pos3.mk 1 2 3))] : List (String × Option Pos3)).map Prod.fst).Nodup ∧
    ("p1", some (Pos3.mk 1 2 3)) ∈ ([("p1", some (Pos3.mk 1 2 3))] : List (String × Option Pos3)) ∧
    "p1" ≠ (initManager "me").localPlayerId ∧
    ((∃ rp,
        lookupId (handleMessage (initManager "me")
          (.game_state [("p1", some (Pos3.mk 1 2 3))])).players "p1" = some rp ∧
        rp.targetPosition = Pos3.mk 1 2 3) ∧
      ∀ i ∈ (initManager "me").players.map Prod.fst,
        i ∈ (handleMessage (initManager "me")
          (.game_state [("p1", some (Pos3.mk 1 2 3))])).players.map Prod.fst) :=
  ⟨by simp, by simp, by decide,
    game_state_superset (initManager "me") [("p1", some (Pos3.mk 1 2 3))] "p1"
      (Pos3.mk 1 2 3) (by simp) (by simp) (by decide)⟩

/-- **C5.** If `connect(playerName)` rejects, the error is surfaced to
`handleGameStart` (the caller awaiting it) and the game does not start:
the scene state is left entirely unchanged — in particular, starting from
the initial state, `gameStarted` remains false, no `TronGame` is
constructed and the arena-size state keeps its initial value.  Game start
happens only on the success path of the connection. -/
theorem connect_failure_no_start (name msg : String) (ready : Bool)
    (st : SceneState) :
    handleGameStart name (.connError msg) st = st ∧
    (handleGameStart name (.connError msg) (initialSceneState ready)).gameStarted = false ∧
    (handleGameStart name (.connError msg) (initialSceneState ready)).game = none ∧
    (handleGameStart name (.connError msg) (initialSceneState ready)).arenaSize =
      (initialSceneState ready).arenaSize :=
  ⟨rfl, rfl, rfl, rfl⟩

theorem length_dropWhile_le (p : Char → Bool) (l : List Char) :
    (l.dropWhile p).length ≤ l.length := by
  induction l with
  | nil => exact le_refl _
  | cons a t ih =>
      rw [List.dropWhile_cons]
      split_ifs
      · exact Nat.le_succ_of_le ih
      · exact le_refl _

theorem jsTrim_length_le (s : List Char) : (jsTrim s).length ≤ s.length := by
  unfold jsTrim
  rw [List.length_reverse]
  calc ((s.dropWhile isTrimWhitespace).reverse.dropWhile isTrimWhitespace).length
      ≤ (s.dropWhile isTrimWhitespace).reverse.length :=
        length_dropWhile_le _ _
    _ = (s.dropWhile isTrimWhitespace).length := List.length_reverse _
    _ ≤ s.length := length_dropWhile_le _ _

/-- **C9.** For every string the user types into the start menu (bounded
by the input's 15-character `maxLength`), whenever the submission goes
through, the name passed to `onStart` is the trimmed input: it is
non-empty and at most 15 characters long; submission is suppressed when
the trimmed input is empty. -/
theorem submitted_name_nonempty_bounded (typed n : List Char)
    (h : handleSubmit (inputValue typed) = some n) :
    n ≠ [] ∧ n.length ≤ nameMaxLength ∧ n = jsTrim (inputValue typed) := by
  unfold handleSubmit at h
  split_ifs at h with hne
  injection h with h
  subst h
  refine ⟨hne, ?_, rfl⟩
  calc (jsTrim (inputValue typed)).length
      ≤ (inputValue typed).length := jsTrim_length_le _
    _ ≤ nameMaxLength := by
        unfold inputValue
        exact List.length_take_le _ _

theorem submitted_name_nonempty_bounded_witness :
    handleSubmit (inputValue [' ', 'b', 'o', 'b']) = some ['b', 'o', 'b'] ∧
    (['b', 'o', 'b'] : List Char) ≠ [] ∧
    (['b', 'o', 'b'] : List Char).length ≤ nameMaxLength ∧
    ['b', 'o', 'b'] = jsTrim (inputValue [' ', 'b', 'o', 'b']) :=
  ⟨by decide,
    submitted_name_nonempty_bounded [' ', 'b', 'o', 'b'] ['b', 'o', 'b'] (by decide)⟩

theorem scale_dec_bounds (r red : ℚ) (_h1 : MIN_RESOLUTION_SCALE ≤ r) (h2 : r ≤ 1)
    (hr0 : 0 ≤ red) (hr1 : red ≤ 1) :
    MIN_RESOLUTION_SCALE ≤ max (r * red) MIN_RESOLUTION_SCALE ∧
      max (r * red) MIN_RESOLUTION_SCALE ≤ 1 := by
  refine ⟨le_max_right _ _, max_le ?_ ?_⟩
  · nlinarith
  · norm_num [MIN_RESOLUTION_SCALE]

theorem scale_inc_bounds (r : ℚ) (h1 : MIN_RESOLUTION_SCALE ≤ r) (_h2 : r ≤ 1) :
    MIN_RESOLUTION_SCALE ≤ min (r * (102/100)) 1 ∧ min (r * (102/100)) 1 ≤ 1 := by
  unfold MIN_RESOLUTION_SCALE at *
  refine ⟨le_min (by linarith) (by norm_num), min_le_right _ _⟩

theorem adjustResolution_scale_bounds (st1 : PerformanceManager) (now avgFps : ℚ)
    (hlo : MIN_RESOLUTION_SCALE ≤ st1.resolutionScale)
    (hhi : st1.resolutionScale ≤ 1) :
    MIN_RESOLUTION_SCALE ≤ (adjustResolution st1 now avgFps).resolutionScale ∧
      (adjustResolution st1 now avgFps).resolutionScale ≤ 1 := by
  simp only [adjustResolution]
  split_ifs
  · exact scale_dec_bounds st1.resolutionScale _ hlo hhi (by norm_num) (by norm_num)
  · exact ⟨hlo, hhi⟩
  · exact scale_dec_bounds st1.resolutionScale _ hlo hhi (by norm_num) (by norm_num)
  · exact ⟨hlo, hhi⟩
  · exact scale_inc_bounds st1.resolutionScale hlo hhi
  · exact ⟨hlo, hhi⟩
  · exact ⟨hlo, hhi⟩

/-- `update` either leaves the resolution scale alone (disabled,
accumulating within the FPS second, or inside `MIN_CHANGE_INTERVAL`) or
hands over to the adjustment branch, with the scale unchanged up to that
point. -/
theorem update_scale_cases (st : PerformanceManager) (now : ℚ) :
    (st.update now).resolutionScale = st.resolutionScale ∨
    ∃ st1 a, st1.resolutionScale = st.resolutionScale ∧
      st.update now = adjustResolution st1 now a := by
  simp only [PerformanceManager.update]
  split_ifs
  · exact Or.inl rfl
  · exact Or.inl rfl
  · exact Or.inl rfl
  · refine Or.inr ⟨_, _, ?_, rfl⟩
    rfl
  · refine Or.inr ⟨_, _, ?_, rfl⟩
    rfl
  · exact Or.inl rfl

theorem applyPerfOp_scale_bounds (st : PerformanceManager) (op : PerfOp)
    (hlo : MIN_RESOLUTION_SCALE ≤ st.resolutionScale)
    (hhi : st.resolutionScale ≤ 1) :
    MIN_RESOLUTION_SCALE ≤ (applyPerfOp st op).resolutionScale ∧
      (applyPerfOp st op).resolutionScale ≤ 1 := by
  rcases op with now | fps | enabled | ⟨s, now⟩
  · show MIN_RESOLUTION_SCALE ≤ (st.update now).resolutionScale ∧
      (st.update now).resolutionScale ≤ 1
    rcases update_scale_cases st now with h | ⟨st1, a, hs, he⟩
    · rw [h]; exact ⟨hlo, hhi⟩
    · rw [he]
      exact adjustResolution_scale_bounds st1 now a
        (by rw [hs]; exact hlo) (by rw [hs]; exact hhi)
  · exact ⟨hlo, hhi⟩
  · show MIN_RESOLUTION_SCALE ≤ (st.setEnabled enabled).resolutionScale ∧
      (st.setEnabled enabled).resolutionScale ≤ 1
    unfold PerformanceManager.setEnabled
    split_ifs
    · exact ⟨hlo, hhi⟩
    · exact ⟨by norm_num [MIN_RESOLUTION_SCALE], le_refl 1⟩
  · show MIN_RESOLUTION_SCALE ≤ (st.setResolutionScale s now).resolutionScale ∧
      (st.setResolutionScale s now).resolutionScale ≤ 1
    unfold PerformanceManager.setResolutionScale
    exact ⟨le_max_left _ _,
      max_le (by norm_num [MIN_RESOLUTION_SCALE]) (min_le_left _ _)⟩

/-- **C10.** The `PerformanceManager`s resolution scale always stays
within `[MIN_RESOLUTION_SCALE, 1.0] = [0.5, 1.0]`: starting from the
constructor's `1.0`, every sequence of `update` calls (both the
FPS-driven decrease and increase branches), `setEnabled`,
`setResolutionScale` and `setTargetFps` operations keeps
`0.5 ≤ resolutionScale ≤ 1.0`. -/
theorem resolutionScale_always_bounded (ops : List PerfOp) :
    MIN_RESOLUTION_SCALE ≤
        (ops.foldl applyPerfOp PerformanceManager.init).resolutionScale ∧
      (ops.foldl applyPerfOp PerformanceManager.init).resolutionScale ≤ 1 := by
  have hfold : ∀ (l : List PerfOp) (st : PerformanceManager),
      MIN_RESOLUTION_SCALE ≤ st.resolutionScale → st.resolutionScale ≤ 1 →
      MIN_RESOLUTION_SCALE ≤ (l.foldl applyPerfOp st).resolutionScale ∧
        (l.foldl applyPerfOp st).resolutionScale ≤ 1 := by
    intro l
    induction l with
    | nil => intro st hlo hhi; exact ⟨hlo, hhi⟩
    | cons op rest ih =>
        intro st hlo hhi
        rw [List.foldl_cons]
        have hstep := applyPerfOp_scale_bounds st op hlo hhi
        exact ih (applyPerfOp st op) hstep.1 hstep.2
  exact hfold ops PerformanceManager.init
    (by norm_num [PerformanceManager.init, MIN_RESOLUTION_SCALE])
    (by norm_num [PerformanceManager.init])

/-- **C7.** For every arena size and every candidate position whose `x`
or `z` coordinate has absolute value at least `size/2`, `checkCollision`
returns true; the boundary test is inclusive exactly at `size/2`, so a
coordinate of exactly `size/2` already collides. -/
theorem boundary_collision_inclusive (eng : CollisionEngine) (mover : String)
    (c : Vec2)
    (h : |c.x| ≥ eng.arenaSize / 2 ∨ |c.z| ≥ eng.arenaSize / 2) :
    checkCollision eng mover c = true := by
  rcases h with h | h <;> simp [checkCollision, boundaryHit, h]

theorem boundary_collision_inclusive_witness :
    |(Vec2.mk 250 0).x| ≥ (CollisionEngine.mk 500 [] [] 5).arenaSize / 2 ∧
    checkCollision (CollisionEngine.mk 500 [] [] 5) "m" (Vec2.mk 250 0) = true :=
  ⟨by norm_num,
    boundary_collision_inclusive (CollisionEngine.mk 500 [] [] 5) "m"
      (Vec2.mk 250 0) (Or.inl (by norm_num))⟩

/-- **C8.** For every tracked trail, a candidate position whose projected
path (from the mover's last recorded point) crosses any segment other
than the trail's most recent one is reported as a collision by
`checkCollision`; conversely, a path that crosses only the most recent
(still-forming) segment of the mover's own trail — hitting neither the
boundary, nor any considered segment, nor another player — is not
reported as a collision. -/
theorem trail_crossing_detected (eng : CollisionEngine) (mover : String) (c : Vec2) :
    (∀ pid tr seg, (pid, tr) ∈ eng.trails → seg ∈ (segmentsOf tr).dropLast →
      segmentsIntersect ((lookupTrail eng.trails mover).getLast?.getD c) c
        seg.1 seg.2 = true →
      checkCollision eng mover c = true) ∧
    (boundaryHit eng.arenaSize c = false →
      proximityHit eng mover c = false →
      (∀ t ∈ eng.trails, ∀ seg ∈ trailSegmentsFor mover t.1 t.2,
        segmentsIntersect ((lookupTrail eng.trails mover).getLast?.getD c) c
          seg.1 seg.2 = false) →
      (∃ s, (segmentsOf (lookupTrail eng.trails mover)).getLast? = some s ∧
        segmentsIntersect ((lookupTrail eng.trails mover).getLast?.getD c) c
          s.1 s.2 = true) →
      checkCollision eng mover c = false) := by
  constructor
  · intro pid tr seg hmem hseg hint
    simp only [checkCollision, Bool.or_eq_true]
    refine Or.inl (Or.inr ?_)
    rw [List.any_eq_true]
    refine ⟨(pid, tr), hmem, ?_⟩
    rw [List.any_eq_true]
    refine ⟨seg, ?_, hint⟩
    show seg ∈ trailSegmentsFor mover pid tr
    unfold trailSegmentsFor
    split_ifs with hp
    · exact hseg
    · exact (List.dropLast_sublist (segmentsOf tr)).subset hseg
  · intro hb hprox hall _htip
    have hmid : eng.trails.any (fun t => (trailSegmentsFor mover t.1 t.2).any
        (fun s => segmentsIntersect ((lookupTrail eng.trails mover).getLast?.getD c) c
          s.1 s.2)) = false := by
      rw [List.any_eq_false]
      intro t ht
      rw [Bool.not_eq_true, List.any_eq_false]
      intro s hs
      rw [Bool.not_eq_true]
      exact hall t ht s hs
    simp only [checkCollision, hmid, hb, hprox, Bool.or_false, Bool.false_or]

theorem trail_crossing_detected_witness :
    checkCollision
      (CollisionEngine.mk 500
        [("m", [Vec2.mk 5 (-1)]),
         ("p2", [Vec2.mk 0 0, Vec2.mk 10 0, Vec2.mk 10 10])] [] 0)
      "m" (Vec2.mk 5 1) = true ∧
    checkCollision
      (CollisionEngine.mk 500 [("m", [Vec2.mk 0 0, Vec2.mk 5 0])] [] 0)
      "m" (Vec2.mk 5 1) = false :=
  ⟨(trail_crossing_detected
      (CollisionEngine.mk 500
        [("m", [Vec2.mk 5 (-1)]),
         ("p2", [Vec2.mk 0 0, Vec2.mk 10 0, Vec2.mk 10 10])] [] 0)
      "m" (Vec2.mk 5 1)).1
      "p2" [Vec2.mk 0 0, Vec2.mk 10 0, Vec2.mk 10 10]
      (Vec2.mk 0 0, Vec2.mk 10 0) (by simp) (by simp [segmentsOf])
      (by norm_num [lookupTrail, segmentsIntersect, orient2, inBox]),
   (trail_crossing_detected
      (CollisionEngine.mk 500 [("m", [Vec2.mk 0 0, Vec2.mk 5 0])] [] 0)
      "m" (Vec2.mk 5 1)).2
      (by norm_num [boundaryHit])
      (by simp [proximityHit])
      (by simp [trailSegmentsFor, segmentsOf])
      ⟨(Vec2.mk 0 0, Vec2.mk 5 0), by simp [lookupTrail, segmentsOf],
        by norm_num [lookupTrail, segmentsOf, segmentsIntersect, orient2, inBox]⟩⟩

end Girgaya
